import Mathlib

/-!
Verification of the causal-graph propagation engines of the foundrygrid
repository: `CausalGraphSubstrate` (src/CAUSAL_GRAPH/causal-graph-substrate.js),
`WaveResonanceCausalGraph` (src/CAUSAL_GRAPH/wave-resonance-causal-graph.js) and
`ReproductiveCausalGraph` (src/CAUSAL_GRAPH/reproductive-causal-graph.js).

Modelling conventions, shared by all definitions below:
* JavaScript numbers are modelled as `ℚ`.  Every concrete value exercised by a
  claim (0.8, 0.5, 0.4, 0.3, …) is exactly representable in binary64 and the
  arithmetic on them (products, `Math.min`, sums below 1) is exact, so the
  rational model agrees with the float run on all inputs used here.
* A JavaScript `Map` is an insertion-ordered association list
  `List (String × α)`: `Map.set` replaces in place or appends (`setAssoc`),
  `Map.get` is `getAssoc`.
* A possibly-absent object property is an `Option`.  The JS `x || d` default
  for numbers maps `none` and `0` (falsy) to `d` (`jsNumOr`); for strings it
  maps `none` and `""` to `d` (`jsStrOr`).
* Caller-supplied callbacks (node `handlers`, function-valued edge
  `conditions`, edge `transform`s) are host code outside the engine; the
  engine only awaits them and none of the claims' scenarios install any, so
  they are not modelled.  Declarative (key/value object) edge conditions are
  modelled faithfully.
* `Date.now()` is an explicit `now : Nat` argument (it is only ever stored in
  `lastFired` fields, never branched on by the engine).
* `propagate` schedules each downstream message with
  `setTimeout(cb, edge.delay)` (lines 167-177).  Those timer callbacks are
  macrotasks, while the `while` loop's continuations after each `await` are
  promise microtasks (the awaited promises resolve immediately when no
  handlers are installed, as in every claim scenario), and macrotasks cannot
  run before the microtask queue is exhausted.  So no scheduled push is ever
  consumed by the same run's loop: a run processes exactly the messages that
  were in `this.messageQueue` when it started plus its own initial message,
  and the scheduled pushes reach `this.messageQueue` only after the call
  returns.  The model collects them in scheduling order (`RunOut.deferred`,
  exact because every delay in the claims' scenarios is the default 0) and
  installs them as the post-call `messageQueue`; callers are assumed to
  yield to the event loop between top-level calls, so the next `propagate`
  finds them queued.  Inside one `broadcast` the member loop never yields to
  the macrotask queue, so all members' deferred messages land only after the
  whole broadcast.
-/

namespace FoundryGrid

abbrev NodeId := String

/-- Insertion-ordered lookup, the model of `Map.get` / JS property read. -/
def getAssoc {α : Type} : List (String × α) → String → Option α
  | [], _ => none
  | (k, v) :: rest, key => if k = key then some v else getAssoc rest key

/-- Insertion-ordered update, the model of `Map.set` / JS property write:
replace in place when the key exists, append otherwise. -/
def setAssoc {α : Type} : List (String × α) → String → α → List (String × α)
  | [], key, v => [(key, v)]
  | (k, w) :: rest, key, v =>
    if k = key then (key, v) :: rest else (k, w) :: setAssoc rest key v

/-- JS `x || d` for numeric properties: absent or `0` (falsy) gives the
default. -/
def jsNumOr (v : Option ℚ) (d : ℚ) : ℚ :=
  match v with
  | none => d
  | some x => if x = 0 then d else x

/-- JS `x || d` for string properties: absent or `""` (falsy) gives the
default. -/
def jsStrOr (v : Option String) (d : String) : String :=
  match v with
  | none => d
  | some x => if x = "" then d else x

/-- A node of `CausalGraphSubstrate` (`registerNode`, lines 51-59).  The
`handlers` property holds caller callbacks and is not modelled. -/
structure Node where
  id : NodeId
  type : String
  data : List (String × String)
  activation : ℚ
  lastFired : Option Nat
  metadata : List (String × String)
deriving Repr, DecidableEq

/-- The `config` argument of `registerNode`. -/
structure NodeConfig where
  type : Option String := none
  data : List (String × String) := []
  groups : List String := []
  metadata : List (String × String) := []
deriving Repr, DecidableEq

/-- The node object built by `registerNode` (activation starts at 0,
`lastFired` at `null`). -/
def mkNode (id : NodeId) (cfg : NodeConfig) : Node :=
  { id := id
    type := jsStrOr cfg.type "generic"
    data := cfg.data
    activation := 0
    lastFired := none
    metadata := cfg.metadata }

/-- An edge of `CausalGraphSubstrate` (`registerCausalEdge`, lines 88-98).
`conditions` keeps only the declarative key/value form of
`_evaluateConditions`; function conditions and `transform` are caller
callbacks, not modelled (none of the claims installs one). -/
structure Edge where
  id : String
  «from» : NodeId
  «to» : NodeId
  strength : ℚ
  delay : ℚ
  conditions : Option (List (String × String)) := none
  bidirectional : Bool
  metadata : List (String × String)
deriving Repr, DecidableEq

/-- The `config` argument of `registerCausalEdge`. -/
structure EdgeConfig where
  «from» : NodeId
  «to» : NodeId
  strength : Option ℚ := none
  delay : Option ℚ := none
  conditions : Option (List (String × String)) := none
  bidirectional : Option Bool := none
  metadata : List (String × String) := []
deriving Repr, DecidableEq

/-- The edge object stored by `registerCausalEdge`: note
`config.strength || 1.0` (so an explicit weight 0 silently becomes 1.0) and
`config.bidirectional || false`. -/
def mkEdge (id : String) (cfg : EdgeConfig) : Edge :=
  { id := id
    «from» := cfg.«from»
    «to» := cfg.«to»
    strength := jsNumOr cfg.strength 1
    delay := jsNumOr cfg.delay 0
    conditions := cfg.conditions
    bidirectional := cfg.bidirectional.getD false
    metadata := cfg.metadata }

/-- An in-flight propagation message (pushed at lines 124-132 and 168-176;
the run-constant `id` and the stored `timestamp` are never branched on and
are omitted). -/
structure Msg where
  «from» : Option NodeId
  «to» : NodeId
  signal : ℚ
  metadata : List (String × String)
  path : List NodeId
deriving Repr, DecidableEq

/-- The value `_activateNode` returns for an existing node (handler results
omitted: no claim installs handlers). -/
structure ActResult where
  nodeId : NodeId
  activation : ℚ
deriving Repr, DecidableEq

/-- One entry of `observedPatterns`: `{ count, strength: [] }`. -/
structure PatternStat where
  count : Nat
  strength : List ℚ
deriving Repr, DecidableEq

/-- One entry of `proposedEdges` (`_learnPattern`, lines 334-340); the
display-only `reason` string is omitted. -/
structure Proposal where
  «from» : NodeId
  «to» : NodeId
  strength : ℚ
  confidence : ℚ
deriving Repr, DecidableEq

/-- The state of a `CausalGraphSubstrate` instance (constructor, lines
15-33; `evolutionHistory` is only written by `approveEvolution`, which no
claim exercises, and is omitted). -/
structure Substrate where
  nodes : List (NodeId × Node) := []
  edges : List (String × Edge) := []
  messageQueue : List Msg := []
  observedPatterns : List (String × PatternStat) := []
  proposedEdges : List Proposal := []
  nodeGroups : List (String × List NodeId) := []
deriving Repr, DecidableEq

/-- A fresh substrate (`new CausalGraphSubstrate()`). -/
def Substrate.init : Substrate := {}

/-- JS `Set.add` on an insertion-ordered set. -/
def setInsert (l : List NodeId) (x : NodeId) : List NodeId :=
  if x ∈ l then l else l ++ [x]

/-- The group-registration loop of `registerNode` (lines 62-69). -/
def addToGroups (gs : List (String × List NodeId)) (groups : List String)
    (id : NodeId) : List (String × List NodeId) :=
  groups.foldl (fun acc g => setAssoc acc g (setInsert ((getAssoc acc g).getD []) id)) gs

/-- `registerNode(id, config)`: unconditional `this.nodes.set(id, …)` — a
duplicate id silently overwrites the existing node. -/
def registerNode (s : Substrate) (id : NodeId) (cfg : NodeConfig) : Substrate :=
  { s with
    nodes := setAssoc s.nodes id (mkNode id cfg)
    nodeGroups := addToGroups s.nodeGroups cfg.groups id }

/-- `registerCausalEdge(id, config)`: unconditional `this.edges.set(id, …)` —
no endpoint or weight validation of any kind. -/
def registerCausalEdge (s : Substrate) (id : String) (cfg : EdgeConfig) : Substrate :=
  { s with edges := setAssoc s.edges id (mkEdge id cfg) }

/-- `_findOutgoingEdges(nodeId)` (lines 224-245): forward edges in insertion
order, plus a synthesized reverse view of each bidirectional edge whose
target is `nodeId`. -/
def findOutgoingEdges : List (String × Edge) → NodeId → List Edge
  | [], _ => []
  | (_, e) :: rest, nid =>
    (if e.«from» = nid then [e] else []) ++
    (if e.bidirectional ∧ e.«to» = nid then [{ e with «from» := e.«to», «to» := e.«from» }] else []) ++
    findOutgoingEdges rest nid

/-- The key/value branch of `_evaluateConditions` (lines 256-262). -/
def evaluateConditions (conds : List (String × String)) (m : Msg) : Bool :=
  conds.all fun kv => getAssoc m.metadata kv.1 == some kv.2

/-- `edge.conditions && !_evaluateConditions(...)` guard at line 156: a
missing conditions object always lets the edge fire. -/
def condAllows (c : Option (List (String × String))) (m : Msg) : Bool :=
  match c with
  | none => true
  | some conds => evaluateConditions conds m

/-- `_activateNode` (lines 191-222): warn-and-return-`null` for a missing
node, otherwise clamp-add the signal (`min(1, activation + signal)`) and
record the firing time.  Handler execution is caller code, not modelled. -/
def activateNode (nodes : List (NodeId × Node)) (nid : NodeId) (signal : ℚ)
    (now : Nat) : List (NodeId × Node) × Option ActResult :=
  match getAssoc nodes nid with
  | none => (nodes, none)
  | some node =>
    let node' := { node with
      activation := min 1 (node.activation + signal)
      lastFired := some now }
    (setAssoc nodes nid node', some ⟨nid, node'.activation⟩)

/-- The output of the queue-processing loop of `propagate`: final nodes, the
`results` list in visitation order (`null` entries for missing nodes), the
visited node ids in reverse visitation order, and the downstream messages
whose `setTimeout` pushes are still pending when the loop exits, in
scheduling order. -/
structure RunOut where
  nodes : List (NodeId × Node)
  results : List (Option ActResult)
  visitedRev : List NodeId
  deferred : List Msg
deriving Repr, DecidableEq

/-- The message built at lines 168-176 for an outgoing edge:
`signal * edge.strength`, metadata extended with the edge id, path extended
with the target. -/
def downstreamMsg (m : Msg) (e : Edge) : Msg :=
  { «from» := some m.«to»
    «to» := e.«to»
    signal := m.signal * e.strength
    metadata := setAssoc m.metadata "edge" e.id
    path := m.path ++ [e.«to»] }

/-- The `while (this.messageQueue.length > 0)` loop of `propagate` (lines
138-179).  Each iteration dequeues one message, skips it if its target was
already visited in this run (the cycle guard keyed by
`` `${msg.to}_${propagationId}` ``, which within one run reduces to
`msg.to`), otherwise activates the target and *schedules* one message per
firing outgoing edge via `setTimeout`.  Those pushes cannot land in
`this.messageQueue` while the loop runs (see the header), so the loop only
consumes the messages queued at entry — recursion on that queue is
structural — and the scheduled pushes are collected in order in
`deferred`. -/
def runQueue (edges : List (String × Edge)) (now : Nat) :
    List (NodeId × Node) → List Msg → List NodeId →
    List (Option ActResult) → List Msg → RunOut
  | nodes, [], visited, acc, deferred => ⟨nodes, acc.reverse, visited, deferred⟩
  | nodes, msg :: rest, visited, acc, deferred =>
    if msg.«to» ∈ visited then
      runQueue edges now nodes rest visited acc deferred
    else
      let next := activateNode nodes msg.«to» msg.signal now
      let newMsgs := (findOutgoingEdges edges msg.«to»).filterMap fun e =>
        if condAllows e.conditions msg then some (downstreamMsg msg e) else none
      runQueue edges now next.1 rest (msg.«to» :: visited) (next.2 :: acc) (deferred ++ newMsgs)

/-- The initial message queued by `propagate` (lines 124-132). -/
def initMsg (src : NodeId) (signal : ℚ) (metadata : List (String × String)) : Msg :=
  { «from» := none, «to» := src, signal := signal, metadata := metadata, path := [src] }

/-- The queue-processing phase of `propagate s src signal metadata`: the
initial message is appended to whatever is already queued (leftover
timer-delivered messages from earlier calls), and the loop consumes exactly
that queue. -/
def runProp (s : Substrate) (src : NodeId) (signal : ℚ)
    (metadata : List (String × String)) (now : Nat) : RunOut :=
  runQueue s.edges now s.nodes (s.messageQueue ++ [initMsg src signal metadata]) [] [] []

/-- Visitation order of a run (the order nodes were dequeued and activated). -/
def visitOrder (r : RunOut) : List NodeId := r.visitedRev.reverse

/-- `reduce((a,b) => a+b, 0)`. -/
def sumQ (l : List ℚ) : ℚ := l.foldl (· + ·) 0

/-- `_learnPattern(sourceNode, results)` (lines 303-346): per non-null
result, bump the `sourceNode→nodeId` pattern counter and record the reached
activation; once the count EXCEEDS 5 and the average recorded strength
exceeds 0.3 and no registered edge already links the pair, push a proposal
with confidence `count / 10` (no clamping). -/
def learnPattern (edges : List (String × Edge)) (sourceNode : NodeId) :
    List (Option ActResult) → List (String × PatternStat) → List Proposal →
    List (String × PatternStat) × List Proposal
  | [], pats, props => (pats, props)
  | none :: rest, pats, props => learnPattern edges sourceNode rest pats props
  | some r :: rest, pats, props =>
    let key := sourceNode ++ "→" ++ r.nodeId
    let ob := (getAssoc pats key).getD ⟨0, []⟩
    let ob' : PatternStat := ⟨ob.count + 1, ob.strength ++ [r.activation]⟩
    let props' :=
      if ob'.count > 5 then
        let avg := sumQ ob'.strength / (ob'.strength.length : ℚ)
        let edgeExists := edges.any fun ie => ie.2.«from» == sourceNode && ie.2.«to» == r.nodeId
        if !edgeExists && decide (avg > 3/10) then
          props ++ [⟨sourceNode, r.nodeId, avg, (ob'.count : ℚ) / 10⟩]
        else props
      else props
    learnPattern edges sourceNode rest (setAssoc pats key ob') props'

/-- The spec's error taxonomy, plus the errors the code can actually raise:
a `TypeError` (e.g. reading `.nodeId` of a `null` result at line 186) and
generic `new Error(msg)` throws.  `nodeNotFoundError` exists in this
vocabulary so theorems can state which error is (not) raised; no code path
produces it. -/
inductive JsError where
  | typeError
  | nodeNotFoundError
  | errorMsg (msg : String)
deriving Repr, DecidableEq

/-- The value `propagate` resolves with (lines 184-188) when no result entry
is `null`; `propagationId` is a run-unique token with no observable role and
is omitted. -/
structure PropResult where
  activatedNodes : List NodeId
  finalStates : List ActResult
deriving Repr, DecidableEq

instance {ε α : Type} [DecidableEq ε] [DecidableEq α] : DecidableEq (Except ε α) := fun a b =>
  match a, b with
  | Except.ok x, Except.ok y =>
    if h : x = y then isTrue (by rw [h]) else isFalse (by intro hh; cases hh; exact h rfl)
  | Except.ok _, Except.error _ => isFalse (fun hh => Except.noConfusion hh)
  | Except.error _, Except.ok _ => isFalse (fun hh => Except.noConfusion hh)
  | Except.error x, Except.error y =>
    if h : x = y then isTrue (by rw [h]) else isFalse (by intro hh; cases hh; exact h rfl)

/-- `propagate(sourceNodeId, signal, metadata)` (lines 107-189).  The run
always mutates the graph (activations, learned patterns); the loop drains
`this.messageQueue`, and the run's own `setTimeout`-deferred downstream
messages repopulate it after the call returns (before the next top-level
call — see the header).  Afterwards `results.map(r => r.nodeId)` throws a
`TypeError` if any visited node was unregistered (a `null` result),
otherwise the call resolves normally.  There is no source-id validation and
no `NodeNotFoundError`. -/
def propagate (s : Substrate) (src : NodeId) (signal : ℚ)
    (metadata : List (String × String)) (now : Nat) :
    Substrate × Except JsError PropResult :=
  let out := runProp s src signal metadata now
  let lp := learnPattern s.edges src out.results s.observedPatterns s.proposedEdges
  let s' : Substrate := { s with
    nodes := out.nodes
    messageQueue := out.deferred
    observedPatterns := lp.1
    proposedEdges := lp.2 }
  if out.results.all Option.isSome then
    (s', Except.ok
      { activatedNodes := out.results.filterMap fun r => r.map ActResult.nodeId
        finalStates := out.results.filterMap id })
  else
    (s', Except.error JsError.typeError)

/-- `getProposedEvolutions()` (lines 348-354): proposals with confidence
above 0.5. -/
def getProposedEvolutions (s : Substrate) : List Proposal :=
  s.proposedEdges.filter fun p => decide (1/2 < p.confidence)

/-- The member loop of `broadcast` (lines 287-294): each member gets an
independent `propagate` with the group name stamped into the metadata.  The
whole loop is one microtask chain, so no member's timer-deferred messages
can be delivered before the loop ends: they are held in `defAcc` and reach
`this.messageQueue` only after the whole broadcast (also when a member's
propagation rejects and aborts the loop). -/
def broadcastGo (now : Nat) (signal : ℚ) (md : List (String × String))
    (g : String) : List NodeId → Substrate → List Msg →
    Substrate × Except JsError (List PropResult)
  | [], s, defAcc => ({ s with messageQueue := s.messageQueue ++ defAcc }, Except.ok [])
  | nid :: rest, s, defAcc =>
    match propagate s nid signal (setAssoc md "broadcast" g) now with
    | (s', Except.ok r) =>
      match broadcastGo now signal md g rest { s' with messageQueue := [] }
          (defAcc ++ s'.messageQueue) with
      | (s'', Except.ok rs) => (s'', Except.ok (r :: rs))
      | (s'', Except.error e) => (s'', Except.error e)
    | (s', Except.error e) =>
      ({ s' with messageQueue := defAcc ++ s'.messageQueue }, Except.error e)

/-- `broadcast(groupName, signal, metadata)` (lines 269-297): a missing group
only warns and returns `[]`. -/
def broadcast (s : Substrate) (groupName : String) (signal : ℚ)
    (md : List (String × String)) (now : Nat) :
    Substrate × Except JsError (List PropResult) :=
  match getAssoc s.nodeGroups groupName with
  | none => (s, Except.ok [])
  | some members => broadcastGo now signal md groupName members s []

/-- The public operations of the substrate, for stating whole-history
invariants. -/
inductive Op where
  | regNode (id : NodeId) (cfg : NodeConfig)
  | regEdge (id : String) (cfg : EdgeConfig)
  | prop (src : NodeId) (signal : ℚ) (metadata : List (String × String))
  | bcast (group : String) (signal : ℚ) (metadata : List (String × String))
deriving Repr, DecidableEq

/-- Apply one operation (timestamps fixed at 0: the engine never branches on
them). -/
def applyOp (s : Substrate) : Op → Substrate
  | .regNode id cfg => registerNode s id cfg
  | .regEdge id cfg => registerCausalEdge s id cfg
  | .prop src sig md => (propagate s src sig md 0).1
  | .bcast g sig md => (broadcast s g sig md 0).1

/-- Run a call history against a fresh substrate. -/
def applyOps (ops : List Op) : Substrate := ops.foldl applyOp Substrate.init

/-- Operations with in-range numeric inputs: nonnegative signals and a
nonnegative effective edge weight. -/
def validOp : Op → Bool
  | .regNode _ _ => true
  | .regEdge _ cfg => decide (0 ≤ jsNumOr cfg.strength 1)
  | .prop _ sig _ => decide (0 ≤ sig)
  | .bcast _ sig _ => decide (0 ≤ sig)

def validOps (ops : List Op) : Bool := ops.all validOp

/-- Activation level of a node id (0 for an unregistered id). -/
def actOfNodes (nodes : List (NodeId × Node)) (id : NodeId) : ℚ :=
  match getAssoc nodes id with
  | some n => n.activation
  | none => 0

/-- Activation level of a node id in a substrate. -/
def actOf (s : Substrate) (id : NodeId) : ℚ := actOfNodes s.nodes id

/-- The state invariant carried across operation histories: every activation
in `[0, 1]`, every stored edge weight nonnegative, and every pending
(timer-delivered) message carrying a nonnegative signal. -/
def SubstrateInv (s : Substrate) : Prop :=
  (∀ id, 0 ≤ actOf s id ∧ actOf s id ≤ 1) ∧
  (∀ p ∈ s.edges, 0 ≤ p.2.strength) ∧
  (∀ m ∈ s.messageQueue, 0 ≤ m.signal)

/-! ### WaveResonanceCausalGraph (src/CAUSAL_GRAPH/wave-resonance-causal-graph.js)

Only the parts the claims touch are embedded: oscillator nodes, resonance
edge registration, and the `_updateWaveField` timestep.  Transcendental
evaluation (`Math.sin`/`Math.cos` inside `_generateWave` and
`Math.cos(edge.phaseShift)`) is abstracted as explicit function parameters
`wave` and `cosFn`; the amplitude bookkeeping proved about below does not
depend on their values.  The threshold-triggered `handler` callback and the
`_learnResonancePatterns` bookkeeping (separate state, every 100th step) do
not touch amplitudes and are not modelled. -/

/-- A wave-oscillator node (`registerNode`, lines 64-84; the static HD
coordinates, groups and metadata are never read by `_updateWaveField` or
`registerResonanceEdge` and are omitted). -/
structure WaveNode where
  id : String
  frequency : ℚ
  phase : ℚ
  amplitude : ℚ
  waveform : String
deriving Repr, DecidableEq

/-- A resonance coupling (`registerResonanceEdge`, lines 167-175). -/
structure WaveEdge where
  id : String
  «from» : String
  «to» : String
  strength : ℚ
  phaseShift : ℚ
  harmonicResonance : ℚ
  bidirectional : Bool
deriving Repr, DecidableEq

/-- The `config` argument of `registerResonanceEdge`. -/
structure WaveEdgeConfig where
  «from» : String
  «to» : String
  strength : Option ℚ := none
  phaseShift : Option ℚ := none
  bidirectional : Option Bool := none
deriving Repr, DecidableEq

/-- State of a `WaveResonanceCausalGraph` (constructor, lines 15-35;
`resonanceHistory`/`proposedResonances` are untouched by the claims). -/
structure WaveResonanceCausalGraph where
  nodes : List (String × WaveNode) := []
  edges : List (String × WaveEdge) := []
  fieldState : List (String × ℚ) := []
  time : ℚ := 0
deriving Repr, DecidableEq

/-- `_calculateHarmonicResonance(freqRatio)` (lines 180-205): best match over
the table of simple ratios, each hit scoring `strength * (1 - diff)` when
within 0.05 of the ratio. -/
def harmonicRatios : List (ℚ × ℚ) :=
  [(1, 1), (2, 9/10), (3/2, 4/5), (1333/1000, 7/10), (5/4, 3/5), (809/500, 3/4)]

def calculateHarmonicResonance (freqRatio : ℚ) : ℚ :=
  harmonicRatios.foldl
    (fun best rs =>
      if |freqRatio - rs.1| < 1/20 then max best (rs.2 * (1 - |freqRatio - rs.1|)) else best)
    0

/-- `registerResonanceEdge(id, config)` (lines 144-178): a missing endpoint
only logs `console.warn` and returns without touching the graph — no error
is raised and no weight validation happens.  (The frequency ratio of a
0-frequency source is division by zero: ℚ gives 0 where JS gives ±Infinity;
no claim exercises that case.) -/
def registerResonanceEdge (g : WaveResonanceCausalGraph) (id : String)
    (cfg : WaveEdgeConfig) : WaveResonanceCausalGraph :=
  match getAssoc g.nodes cfg.«from», getAssoc g.nodes cfg.«to» with
  | some fromNode, some toNode =>
    let hr := calculateHarmonicResonance (toNode.frequency / fromNode.frequency)
    let e' : WaveEdge :=
      ⟨id, cfg.«from», cfg.«to», jsNumOr cfg.strength 1, jsNumOr cfg.phaseShift 0,
       hr, cfg.bidirectional.getD false⟩
    { g with edges := setAssoc g.edges id e' }
  | _, _ => g

/-- `this.sampleRate` (line 18). -/
def sampleRate : ℚ := 1000

/-- The first loop of `_updateWaveField` (lines 250-261): recompute the field
value of every node at the current time (`wave` stands for `_generateWave`
at that time). -/
def computeFieldState (wave : WaveNode → ℚ) (nodes : List (String × WaveNode))
    (fs0 : List (String × ℚ)) : List (String × ℚ) :=
  nodes.foldl (fun fs p => setAssoc fs p.1 (wave p.2)) fs0

/-- The amplitude increment one coupling contributes (lines 271-277):
`|sourceValue * strength * harmonicResonance * cos(phaseShift)| * 0.01`. -/
def couplingIncr (fs : List (String × ℚ)) (cosFn : ℚ → ℚ) (e : WaveEdge) : ℚ :=
  |((getAssoc fs e.«from»).getD 0) * e.strength * e.harmonicResonance * cosFn e.phaseShift| * (1/100)

/-- The coupling loop of `_updateWaveField` (lines 264-286): for each edge in
insertion order, clamp-add the transferred energy to the target's amplitude
(`min(1, amplitude + |transferred| * 0.01)`); a missing target is skipped.
The threshold handler call mutates nothing the engine reads. -/
def applyCouplings (fs : List (String × ℚ)) (cosFn : ℚ → ℚ) :
    List (String × WaveEdge) → List (String × WaveNode) → List (String × WaveNode)
  | [], nodes => nodes
  | (_, e) :: rest, nodes =>
    let nodes' :=
      match getAssoc nodes e.«to» with
      | none => nodes
      | some tn =>
        setAssoc nodes e.«to» { tn with amplitude := min 1 (tn.amplitude + couplingIncr fs cosFn e) }
    applyCouplings fs cosFn rest nodes'

/-- `_updateWaveField(step)` (lines 241-292): advance time, recompute the
field state, then apply every resonance coupling. -/
def updateWaveField (wave : WaveNode → ℚ) (cosFn : ℚ → ℚ) (step : Nat)
    (g : WaveResonanceCausalGraph) : WaveResonanceCausalGraph :=
  let fs := computeFieldState wave g.nodes g.fieldState
  { g with
    time := (step : ℚ) / sampleRate
    fieldState := fs
    nodes := applyCouplings fs cosFn g.edges g.nodes }

/-- Total coupling budget an id can receive in one timestep: the sum of the
per-edge increments aimed at it. -/
def couplingSum (fs : List (String × ℚ)) (cosFn : ℚ → ℚ) :
    List (String × WaveEdge) → String → ℚ
  | [], _ => 0
  | (_, e) :: rest, id =>
    (if e.«to» = id then couplingIncr fs cosFn e else 0) + couplingSum fs cosFn rest id

/-- Amplitude of a node id (0 for an unregistered id). -/
def ampOfNodes (nodes : List (String × WaveNode)) (id : String) : ℚ :=
  match getAssoc nodes id with
  | some n => n.amplitude
  | none => 0

/-- Amplitude of a node id in a wave graph. -/
def ampOf (g : WaveResonanceCausalGraph) (id : String) : ℚ := ampOfNodes g.nodes id

/-! ### ReproductiveCausalGraph (src/CAUSAL_GRAPH/reproductive-causal-graph.js)

The genetics layer the mating claims touch.  `Math.random()` is an explicit
stream `rand : Nat → ℚ` (indices in call order); `Date.now()` is an explicit
argument.  JS objects with possibly-absent keys are `Option`s: the point of
claim C9 is that `_generateDNA` never writes a `baseGenes` key, so
`DNA.baseGenes` is `none` for default DNA and `Object.entries(undefined)` /
property reads on `undefined` throw `TypeError`. -/

/-- The 26 genes + base frequency of one body (`_generateBodyGenes`, lines
96-140); `o` is the index of the body's first `Math.random()` draw. -/
structure BodyGenes where
  colorGenes : List (String × ℚ)
  toneGenes : List (String × ℚ)
  type : String
  frequency : ℚ
deriving Repr, DecidableEq

def generateBodyGenes (rand : Nat → ℚ) (o : Nat) (bodyType : String) : BodyGenes :=
  { colorGenes :=
      [("color1_appetite", rand o), ("color2_taste", rand (o+1)),
       ("color3_thirst", rand (o+2)), ("color4_touch", rand (o+3)),
       ("color5_sound", rand (o+4)), ("color6_light", rand (o+5)),
       ("color7_perspective", rand (o+6)), ("color8_probability", rand (o+7)),
       ("color9_necessity", rand (o+8)), ("color10_desire", rand (o+9)),
       ("color11_innocence", rand (o+10)), ("color12_knowledge", rand (o+11)),
       ("color13_purpose", rand (o+12))]
    toneGenes :=
      [("tone1_security", rand (o+13)), ("tone2_harmony", rand (o+14)),
       ("tone3_action", rand (o+15)), ("tone4_meditation", rand (o+16)),
       ("tone5_expression", rand (o+17)), ("tone6_acceptance", rand (o+18)),
       ("tone7_doubt", rand (o+19)), ("tone8_certainty", rand (o+20)),
       ("tone9_expansion", rand (o+21)), ("tone10_contraction", rand (o+22)),
       ("tone11_spirit", rand (o+23)), ("tone12_body", rand (o+24)),
       ("tone13_integration", rand (o+25))]
    type := bodyType
    frequency := 200 + rand (o+26) * 800 }

structure PersonalityCrystal where
  mind : BodyGenes
  space : BodyGenes
deriving Repr, DecidableEq

structure DesignCrystal where
  body : BodyGenes
  ego : BodyGenes
deriving Repr, DecidableEq

structure MagneticMonopole where
  individuality : BodyGenes
deriving Repr, DecidableEq

structure IntegrationFields where
  mindBody : BodyGenes
  mindSpace : BodyGenes
  bodySpace : BodyGenes
  fullIntegration : BodyGenes
deriving Repr, DecidableEq

/-- A genome object.  `id`, `baseGenes` and the top-level
`colorGenes`/`toneGenes` keys are the ones `canMateWith`/`mateWith` read but
`_generateDNA` never writes (`none` = absent key). -/
structure DNA where
  id : Option String
  generation : Nat
  species : String
  parents : List (Option String)
  ancestors : List (Option String)
  baseGenes : Option (List (String × ℚ))
  colorGenes : Option (List (String × ℚ))
  toneGenes : Option (List (String × ℚ))
  personalityCrystal : PersonalityCrystal
  designCrystal : DesignCrystal
  magneticMonopole : MagneticMonopole
  integrationFields : IntegrationFields
deriving Repr, DecidableEq

/-- `_generateDNA()` (lines 47-94): the full default genome.  The returned
object has exactly the keys below — in particular NO `id`, NO `baseGenes`
and no top-level `colorGenes`/`toneGenes`. -/
def generateDNA (rand : Nat → ℚ) : DNA :=
  { id := none
    generation := 0
    species := "primordial"
    parents := []
    ancestors := []
    baseGenes := none
    colorGenes := none
    toneGenes := none
    personalityCrystal :=
      ⟨generateBodyGenes rand 0 "mind", generateBodyGenes rand 27 "space"⟩
    designCrystal :=
      ⟨generateBodyGenes rand 54 "body", generateBodyGenes rand 81 "ego"⟩
    magneticMonopole := ⟨generateBodyGenes rand 108 "monopole"⟩
    integrationFields :=
      ⟨generateBodyGenes rand 135 "mind_body", generateBodyGenes rand 162 "mind_space",
       generateBodyGenes rand 189 "body_space", generateBodyGenes rand 216 "unified"⟩ }

/-- The state of a `ReproductiveCausalGraph` that the mating methods read
(constructor, lines 15-41; the inner wave graph, fitness and offspring lists
play no role in `canMateWith`). -/
structure ReproductiveCausalGraph where
  dna : DNA
  generation : Nat
  species : String
  parents : List (Option String)
  ancestors : List (Option String)
  age : ℚ
  fertile : Bool
  minMatingAge : ℚ
  cooldownPeriod : ℚ
  lastMating : ℚ
deriving Repr, DecidableEq

/-- `new ReproductiveCausalGraph(dna)`: copies lineage data out of the DNA,
age starts at 0, maturity 60000 ms, cooldown 30000 ms. -/
def mkReproductiveCausalGraph (dna : DNA) : ReproductiveCausalGraph :=
  { dna := dna
    generation := dna.generation
    species := jsStrOr (some dna.species) "primordial"
    parents := dna.parents
    ancestors := dna.ancestors
    age := 0
    fertile := true
    minMatingAge := 60000
    cooldownPeriod := 30000
    lastMating := 0 }

/-- The gene-layer loop of `_calculateGeneticDistance` (lines 433-452) for
one layer: `Object.entries` over the caller's own layer, reading the
matching gene from the other genome.  Reading a property of an *absent*
layer object (`undefined`) throws `TypeError`.  (A gene name missing on the
other genome would give NaN in JS; modelled as a 0 default — no claim and no
reachable code path exercises mismatched gene sets.)  Returns the summed
absolute differences. -/
def geneDiffs (og : Option (List (String × ℚ))) :
    List (String × ℚ) → Except JsError ℚ
  | [] => Except.ok 0
  | (name, v) :: rest =>
    match og with
    | none => Except.error JsError.typeError
    | some om => do
      let acc ← geneDiffs og rest
      Except.ok (|v - (getAssoc om name).getD 0| + acc)

/-- `_calculateGeneticDistance(otherGraph)` (lines 424-455): average absolute
gene difference over the three top-level layers.  `Object.entries` of an
absent layer (e.g. `baseGenes` on default DNA) throws `TypeError`. -/
def calculateGeneticDistance (self other : ReproductiveCausalGraph) :
    Except JsError ℚ :=
  match self.dna.baseGenes with
  | none => Except.error JsError.typeError
  | some bg =>
    match self.dna.colorGenes with
    | none => do
      let _ ← geneDiffs other.dna.baseGenes bg
      Except.error JsError.typeError
    | some cg =>
      match self.dna.toneGenes with
      | none => do
        let _ ← geneDiffs other.dna.baseGenes bg
        let _ ← geneDiffs other.dna.colorGenes cg
        Except.error JsError.typeError
      | some tg => do
        let d1 ← geneDiffs other.dna.baseGenes bg
        let d2 ← geneDiffs other.dna.colorGenes cg
        let d3 ← geneDiffs other.dna.toneGenes tg
        Except.ok ((d1 + d2 + d3) / ((bg.length + cg.length + tg.length : Nat) : ℚ))

/-- `_calculateHybridVigor(otherGraph)` (lines 457-471): reads
`baseGenes.hybridVigor` on both sides (TypeError when the layer is absent),
then scores distance against the 0.3 sweet spot. -/
def calculateHybridVigor (self other : ReproductiveCausalGraph) :
    Except JsError ℚ :=
  match self.dna.baseGenes with
  | none => Except.error JsError.typeError
  | some sbg =>
    match other.dna.baseGenes with
    | none => Except.error JsError.typeError
    | some obg => do
      let avg := ((getAssoc sbg "hybridVigor").getD 0 + (getAssoc obg "hybridVigor").getD 0) / 2
      let gd ← calculateGeneticDistance self other
      Except.ok (avg * (1 - |gd - 3/10|))

/-- The compatibility object `canMateWith` returns. -/
inductive MateCheck where
  | incompatible (reason : String)
  | compatible (geneticDistance : ℚ) (hybridVigor : ℚ)
deriving Repr, DecidableEq

/-- `canMateWith(otherGraph)` (lines 146-185): age gate, cooldown gate,
relatedness gate, then genetic distance — which throws `TypeError` whenever
the caller's DNA has no `baseGenes` layer (always the case for default
DNA). -/
def canMateWith (now : ℚ) (self other : ReproductiveCausalGraph) :
    Except JsError MateCheck :=
  if self.age < self.minMatingAge ∨ other.age < other.minMatingAge then
    Except.ok (MateCheck.incompatible "too_young")
  else if now - self.lastMating < self.cooldownPeriod then
    Except.ok (MateCheck.incompatible "cooldown")
  else if self.ancestors.contains other.dna.id ∨ other.ancestors.contains self.dna.id ∨
          self.parents.contains other.dna.id ∨ other.parents.contains self.dna.id then
    Except.ok (MateCheck.incompatible "too_related")
  else do
    let gd ← calculateGeneticDistance self other
    if gd > 4/5 then Except.ok (MateCheck.incompatible "too_different")
    else do
      let hv ← calculateHybridVigor self other
      Except.ok (MateCheck.compatible gd hv)

/-- `mateWith(otherGraph)` (lines 187-243): rethrows whatever `canMateWith`
throws; throws `Error("Cannot mate: …")` on incompatibility; otherwise reads
`dna.baseGenes.offspringCount` on both sides (TypeError when absent) and
builds offspring.  Crossover + mutation (`Math.random`-driven) is abstracted
as the `mkOffspring` parameter — the claims only concern whether this point
is reachable. -/
def mateWith (mkOffspring : DNA → DNA → Nat → List DNA) (now : ℚ)
    (self other : ReproductiveCausalGraph) : Except JsError (List DNA) := do
  let comp ← canMateWith now self other
  match comp with
  | MateCheck.incompatible reason =>
    Except.error (JsError.errorMsg ("Cannot mate: " ++ reason))
  | MateCheck.compatible _ _ =>
    match self.dna.baseGenes with
    | none => Except.error JsError.typeError
    | some sbg =>
      match other.dna.baseGenes with
      | none => Except.error JsError.typeError
      | some obg =>
        let avgOffspringGene :=
          ((getAssoc sbg "offspringCount").getD 0 + (getAssoc obg "offspringCount").getD 0) / 2
        let offspringCount := (1 + avgOffspringGene * 3).floor.toNat
        Except.ok (mkOffspring self.dna other.dna offspringCount)

/-! ### Concrete scenarios used by the claims -/

/-- Spec §8 end-to-end scenario: nodes `A, B, C`, edges `A→B` (0.8) and
`B→C` (0.5). -/
def endToEndOps : List Op :=
  [Op.regNode "A" {}, Op.regNode "B" {}, Op.regNode "C" {},
   Op.regEdge "eAB" { «from» := "A", «to» := "B", strength := some (4/5) },
   Op.regEdge "eBC" { «from» := "B", «to» := "C", strength := some (1/2) }]

/-- Spec §8 cycle-safety scenario: `A→B` and `B→A`, both weight 1.0. -/
def cycleOps : List Op :=
  [Op.regNode "A" {}, Op.regNode "B" {},
   Op.regEdge "eAB" { «from» := "A", «to» := "B", strength := some 1 },
   Op.regEdge "eBA" { «from» := "B", «to» := "A", strength := some 1 }]

/-- One `propagate('A', 1.0, {})` call. -/
def propagateA : Op := Op.prop "A" 1 []

/-- Pattern-proposal scenario in which the transition `A→B` fires on every
run but no edge *from* `A` *to* `B` is registered: the only edge is the
bidirectional `B→A`, traversed through its synthesized reverse view. -/
def bidirObservationOps : List Op :=
  [Op.regNode "A" {}, Op.regNode "B" {},
   Op.regEdge "e1" { «from» := "B", «to» := "A", strength := some 1,
                     bidirectional := some true }]

/-- Pattern-proposal scenario with a registered direct edge `A→B`. -/
def directEdgeOps : List Op :=
  [Op.regNode "A" {}, Op.regNode "B" {},
   Op.regEdge "e1" { «from» := "A", «to» := "B", strength := some 1 }]

/-- A two-oscillator wave graph with one coupling, used to witness the wave
timestep bounds. -/
def waveExample : WaveResonanceCausalGraph :=
  { nodes :=
      [("A", ⟨"A", 440, 0, 1/2, "sine"⟩), ("B", ⟨"B", 440, 0, 1/2, "sine"⟩)]
    edges := [("e1", ⟨"e1", "A", "B", 1, 0, 1, false⟩)]
    fieldState := [("A", 0), ("B", 0)]
    time := 0 }

/-- A constant stand-in for the transcendental wave/cosine evaluations in
witnesses. -/
def constOne : ℚ → ℚ := fun _ => 1

def constWave : WaveNode → ℚ := fun _ => 1

/-- A constant stand-in for the `Math.random()` stream in witnesses. -/
def constRand : Nat → ℚ := fun _ => 1/2

/-- A degenerate offspring builder for witnesses (never reached). -/
def noOffspring : DNA → DNA → Nat → List DNA := fun _ _ _ => []

/-! ## Helper lemmas -/

theorem getAssoc_setAssoc_self {α : Type} (l : List (String × α)) (k : String) (v : α) :
    getAssoc (setAssoc l k v) k = some v := by
  induction l with
  | nil => simp [getAssoc, setAssoc]
  | cons p rest ih =>
    obtain ⟨k', w⟩ := p
    by_cases h : k' = k
    · simp [setAssoc, h, getAssoc]
    · simp [setAssoc, h, getAssoc, ih]

theorem getAssoc_setAssoc_ne {α : Type} (l : List (String × α)) (k k' : String) (v : α)
    (h : k' ≠ k) : getAssoc (setAssoc l k v) k' = getAssoc l k' := by
  induction l with
  | nil =>
    have hne : k ≠ k' := fun hh => h hh.symm
    simp [getAssoc, setAssoc, hne]
  | cons p rest ih =>
    obtain ⟨k0, w⟩ := p
    by_cases h0 : k0 = k
    · have hne : k ≠ k' := fun hh => h hh.symm
      simp [setAssoc, h0, getAssoc, hne]
    · simp [setAssoc, h0, getAssoc, ih]

theorem isSome_getAssoc_setAssoc {α : Type} (l : List (String × α)) (k : String) (v : α)
    (hex : (getAssoc l k).isSome = true) (id : String) :
    (getAssoc (setAssoc l k v) id).isSome = (getAssoc l id).isSome := by
  by_cases h : id = k
  · subst h
    rw [getAssoc_setAssoc_self]
    simp [hex]
  · rw [getAssoc_setAssoc_ne _ _ _ _ h]

theorem mem_setAssoc {α : Type} {x : String × α} {l : List (String × α)} {k : String}
    {v : α} (h : x ∈ setAssoc l k v) : x = (k, v) ∨ x ∈ l := by
  induction l with
  | nil =>
    simp [setAssoc] at h
    simp [h]
  | cons p rest ih =>
    obtain ⟨k0, w⟩ := p
    by_cases h0 : k0 = k
    · simp [setAssoc, h0] at h
      rcases h with h | h
      · exact Or.inl (by simp [h])
      · exact Or.inr (List.mem_cons_of_mem _ h)
    · simp [setAssoc, h0] at h
      rcases h with h | h
      · exact Or.inr (by simp [h])
      · rcases ih h with h1 | h1
        · exact Or.inl h1
        · exact Or.inr (List.mem_cons_of_mem _ h1)

/-- Outgoing edges (forward or synthesized reverse) inherit a registered
edge's strength. -/
theorem findOutgoingEdges_strength_nonneg (edges : List (String × Edge)) (nid : NodeId)
    (h : ∀ p ∈ edges, 0 ≤ p.2.strength) :
    ∀ e ∈ findOutgoingEdges edges nid, 0 ≤ e.strength := by
  induction edges with
  | nil => simp [findOutgoingEdges]
  | cons p rest ih =>
    obtain ⟨eid, e⟩ := p
    intro e' he'
    have he : 0 ≤ e.strength := h (eid, e) (List.mem_cons_self _ _)
    have hrest : ∀ p ∈ rest, 0 ≤ p.2.strength :=
      fun p hp => h p (List.mem_cons_of_mem _ hp)
    simp only [findOutgoingEdges, List.mem_append] at he'
    rcases he' with (he' | he') | he'
    · split at he' <;> simp_all
    · split at he' <;> simp_all
    · exact ih hrest e' he'

/-- Within one run, the visited list stays duplicate-free: the cycle guard
lets each node be dequeued-and-activated at most once. -/
theorem runQueue_visited_nodup (edges : List (String × Edge)) (now : Nat) :
    ∀ (queue : List Msg) (nodes : List (NodeId × Node)) (visited : List NodeId)
      (acc : List (Option ActResult)) (defAcc : List Msg),
      visited.Nodup →
      (runQueue edges now nodes queue visited acc defAcc).visitedRev.Nodup := by
  intro queue
  induction queue with
  | nil =>
    intro nodes visited acc defAcc h
    simpa [runQueue] using h
  | cons msg rest ih =>
    intro nodes visited acc defAcc h
    simp only [runQueue]
    by_cases hv : msg.«to» ∈ visited
    · rw [if_pos hv]
      exact ih _ _ _ _ h
    · rw [if_neg hv]
      exact ih _ _ _ _ (List.nodup_cons.mpr ⟨hv, h⟩)

/-- A run dequeues each entry of the initial queue once, so it visits at
most as many nodes as there are queued messages. -/
theorem runQueue_visited_length (edges : List (String × Edge)) (now : Nat) :
    ∀ (queue : List Msg) (nodes : List (NodeId × Node)) (visited : List NodeId)
      (acc : List (Option ActResult)) (defAcc : List Msg),
      (runQueue edges now nodes queue visited acc defAcc).visitedRev.length ≤
        visited.length + queue.length := by
  intro queue
  induction queue with
  | nil =>
    intro nodes visited acc defAcc
    simp [runQueue]
  | cons msg rest ih =>
    intro nodes visited acc defAcc
    simp only [runQueue]
    by_cases hv : msg.«to» ∈ visited
    · rw [if_pos hv]
      refine le_trans (ih _ _ _ _) ?_
      simp only [List.length_cons]
      omega
    · rw [if_neg hv]
      refine le_trans (ih _ _ _ _) ?_
      simp only [List.length_cons]
      omega

/-- Results already accumulated stay in the final result list. -/
theorem runQueue_results_mem (edges : List (String × Edge)) (now : Nat) :
    ∀ (queue : List Msg) (nodes : List (NodeId × Node)) (visited : List NodeId)
      (acc : List (Option ActResult)) (defAcc : List Msg) (r : Option ActResult),
      r ∈ acc → r ∈ (runQueue edges now nodes queue visited acc defAcc).results := by
  intro queue
  induction queue with
  | nil =>
    intro nodes visited acc defAcc r hr
    simpa [runQueue] using List.mem_reverse.mpr hr
  | cons msg rest ih =>
    intro nodes visited acc defAcc r hr
    simp only [runQueue]
    by_cases hv : msg.«to» ∈ visited
    · rw [if_pos hv]
      exact ih _ _ _ _ _ hr
    · rw [if_neg hv]
      exact ih _ _ _ _ _ (List.mem_cons_of_mem _ hr)

theorem actOfNodes_setAssoc (nodes : List (NodeId × Node)) (nid : NodeId) (v : Node)
    (id : NodeId) :
    actOfNodes (setAssoc nodes nid v) id =
      if id = nid then v.activation else actOfNodes nodes id := by
  by_cases h : id = nid
  · subst h
    simp [actOfNodes, getAssoc_setAssoc_self]
  · simp [actOfNodes, getAssoc_setAssoc_ne _ _ _ _ h, h]

/-- `_activateNode` keeps every activation inside `[0, 1]` as long as the
arriving signal is nonnegative (the `min(1, …)` clamp gives the upper bound
unconditionally). -/
theorem activateNode_bounds (nodes : List (NodeId × Node)) (nid : NodeId) (signal : ℚ)
    (now : Nat) (hb : ∀ id, 0 ≤ actOfNodes nodes id ∧ actOfNodes nodes id ≤ 1)
    (hs : 0 ≤ signal) :
    ∀ id, 0 ≤ actOfNodes (activateNode nodes nid signal now).1 id ∧
          actOfNodes (activateNode nodes nid signal now).1 id ≤ 1 := by
  intro id
  unfold activateNode
  cases h : getAssoc nodes nid with
  | none => exact hb id
  | some node =>
    have hact : actOfNodes nodes nid = node.activation := by simp [actOfNodes, h]
    simp only [actOfNodes_setAssoc]
    by_cases hid : id = nid
    · rw [if_pos hid]
      constructor
      · exact le_min (by norm_num) (add_nonneg (hact ▸ (hb nid).1) hs)
      · exact min_le_left _ _
    · rw [if_neg hid]
      exact hb id

/-- All downstream messages scheduled from a nonnegative-signal message in a
nonnegative-weight graph carry nonnegative signals. -/
theorem downstream_signal_nonneg (edges : List (String × Edge)) (msg : Msg)
    (he : ∀ p ∈ edges, 0 ≤ p.2.strength) (hm : 0 ≤ msg.signal) :
    ∀ m' ∈ (findOutgoingEdges edges msg.«to»).filterMap fun e =>
        if condAllows e.conditions msg then some (downstreamMsg msg e) else none,
      0 ≤ m'.signal := by
  intro m' hm'
  rcases List.mem_filterMap.mp hm' with ⟨e, hee, heq⟩
  by_cases hc : condAllows e.conditions msg = true
  · rw [if_pos hc] at heq
    obtain rfl := Option.some_injective _ heq
    exact mul_nonneg hm (findOutgoingEdges_strength_nonneg edges msg.«to» he e hee)
  · rw [if_neg hc] at heq
    cases heq

/-- The queue loop preserves the activation bounds when all queued signals
are nonnegative (the run only ever clamp-adds queued signals). -/
theorem runQueue_bounds (edges : List (String × Edge)) (now : Nat) :
    ∀ (queue : List Msg) (nodes : List (NodeId × Node)) (visited : List NodeId)
      (acc : List (Option ActResult)) (defAcc : List Msg),
      (∀ id, 0 ≤ actOfNodes nodes id ∧ actOfNodes nodes id ≤ 1) →
      (∀ m ∈ queue, 0 ≤ m.signal) →
      ∀ id, 0 ≤ actOfNodes (runQueue edges now nodes queue visited acc defAcc).nodes id ∧
            actOfNodes (runQueue edges now nodes queue visited acc defAcc).nodes id ≤ 1 := by
  intro queue
  induction queue with
  | nil =>
    intro nodes visited acc defAcc hb hq id
    simpa [runQueue] using hb id
  | cons msg rest ih =>
    intro nodes visited acc defAcc hb hq id
    have hqr : ∀ m ∈ rest, 0 ≤ m.signal := fun m hm => hq m (List.mem_cons_of_mem _ hm)
    simp only [runQueue]
    by_cases hv : msg.«to» ∈ visited
    · rw [if_pos hv]
      exact ih _ _ _ _ hb hqr id
    · rw [if_neg hv]
      have hmsg : 0 ≤ msg.signal := hq msg (List.mem_cons_self _ _)
      exact ih _ _ _ _ (activateNode_bounds nodes msg.«to» msg.signal now hb hmsg) hqr id

/-- All deferred (timer-scheduled) messages of a run carry nonnegative
signals when the queued signals and edge weights do. -/
theorem runQueue_deferred_nonneg (edges : List (String × Edge)) (now : Nat) :
    ∀ (queue : List Msg) (nodes : List (NodeId × Node)) (visited : List NodeId)
      (acc : List (Option ActResult)) (defAcc : List Msg),
      (∀ p ∈ edges, 0 ≤ p.2.strength) →
      (∀ m ∈ queue, 0 ≤ m.signal) →
      (∀ m ∈ defAcc, 0 ≤ m.signal) →
      ∀ m ∈ (runQueue edges now nodes queue visited acc defAcc).deferred,
        0 ≤ m.signal := by
  intro queue
  induction queue with
  | nil =>
    intro nodes visited acc defAcc he hq hd m hm
    exact hd m (by simpa [runQueue] using hm)
  | cons msg rest ih =>
    intro nodes visited acc defAcc he hq hd m hm
    have hqr : ∀ m ∈ rest, 0 ≤ m.signal := fun m hm => hq m (List.mem_cons_of_mem _ hm)
    simp only [runQueue] at hm
    by_cases hv : msg.«to» ∈ visited
    · rw [if_pos hv] at hm
      exact ih _ _ _ _ he hqr hd m hm
    · rw [if_neg hv] at hm
      have hmsg : 0 ≤ msg.signal := hq msg (List.mem_cons_self _ _)
      refine ih _ _ _ _ he hqr ?_ m hm
      intro m' hm'
      rcases List.mem_append.mp hm' with hm' | hm'
      · exact hd m' hm'
      · exact downstream_signal_nonneg edges msg he hmsg m' hm'

/-- `_activateNode` never creates or removes node ids. -/
theorem activateNode_keys (nodes : List (NodeId × Node)) (nid : NodeId) (signal : ℚ)
    (now : Nat) (id : NodeId) :
    (getAssoc (activateNode nodes nid signal now).1 id).isSome =
      (getAssoc nodes id).isSome := by
  unfold activateNode
  cases h : getAssoc nodes nid with
  | none => rfl
  | some node => exact isSome_getAssoc_setAssoc _ _ _ (by simp [h]) id

/-- The queue loop never creates or removes node ids. -/
theorem runQueue_keys (edges : List (String × Edge)) (now : Nat) :
    ∀ (queue : List Msg) (nodes : List (NodeId × Node)) (visited : List NodeId)
      (acc : List (Option ActResult)) (defAcc : List Msg) (id : NodeId),
      (getAssoc (runQueue edges now nodes queue visited acc defAcc).nodes id).isSome =
        (getAssoc nodes id).isSome := by
  intro queue
  induction queue with
  | nil =>
    intro nodes visited acc defAcc id
    simp [runQueue]
  | cons msg rest ih =>
    intro nodes visited acc defAcc id
    simp only [runQueue]
    by_cases hv : msg.«to» ∈ visited
    · rw [if_pos hv]
      exact ih _ _ _ _ id
    · rw [if_neg hv]
      rw [ih _ _ _ _ id]
      exact activateNode_keys nodes msg.«to» msg.signal now id

/-- The visitation order of a run depends on the graph's nodes only through
which ids exist — not on activation values, and not on the clock. -/
theorem runQueue_visited_keys (edges : List (String × Edge)) :
    ∀ (queue : List Msg) (visited : List NodeId)
      (nodes₁ nodes₂ : List (NodeId × Node)) (acc₁ acc₂ : List (Option ActResult))
      (def₁ def₂ : List Msg) (now₁ now₂ : Nat),
      (∀ id, (getAssoc nodes₁ id).isSome = (getAssoc nodes₂ id).isSome) →
      (runQueue edges now₁ nodes₁ queue visited acc₁ def₁).visitedRev =
        (runQueue edges now₂ nodes₂ queue visited acc₂ def₂).visitedRev := by
  intro queue
  induction queue with
  | nil =>
    intro visited nodes₁ nodes₂ acc₁ acc₂ def₁ def₂ now₁ now₂ hk
    simp [runQueue]
  | cons msg rest ih =>
    intro visited nodes₁ nodes₂ acc₁ acc₂ def₁ def₂ now₁ now₂ hk
    simp only [runQueue]
    by_cases hv : msg.«to» ∈ visited
    · rw [if_pos hv, if_pos hv]
      exact ih _ _ _ _ _ _ _ _ _ hk
    · rw [if_neg hv, if_neg hv]
      refine ih _ _ _ _ _ _ _ _ _ ?_
      intro id
      rw [activateNode_keys, activateNode_keys, hk id]

/-- Whether `propagate` resolves or rejects, its state effect is the same:
updated nodes, the deferred downstream messages as the new pending queue,
and learned patterns. -/
theorem propagate_fst (s : Substrate) (src : NodeId) (sig : ℚ)
    (md : List (String × String)) (now : Nat) :
    (propagate s src sig md now).1 =
      { s with
        nodes := (runProp s src sig md now).nodes
        messageQueue := (runProp s src sig md now).deferred
        observedPatterns :=
          (learnPattern s.edges src (runProp s src sig md now).results
            s.observedPatterns s.proposedEdges).1
        proposedEdges :=
          (learnPattern s.edges src (runProp s src sig md now).results
            s.observedPatterns s.proposedEdges).2 } := by
  simp only [propagate]
  split <;> rfl

/-- One `propagate` call preserves the state invariant when its signal is
nonnegative. -/
theorem propagate_inv (s : Substrate) (src : NodeId) (sig : ℚ)
    (md : List (String × String)) (now : Nat)
    (h : SubstrateInv s) (hs : 0 ≤ sig) : SubstrateInv (propagate s src sig md now).1 := by
  obtain ⟨hb, he, hq⟩ := h
  have hq' : ∀ m ∈ s.messageQueue ++ [initMsg src sig md], 0 ≤ m.signal := by
    intro m hm
    rcases List.mem_append.mp hm with hm | hm
    · exact hq m hm
    · simp only [List.mem_singleton] at hm
      subst hm
      exact hs
  rw [propagate_fst]
  refine ⟨?_, he, ?_⟩
  · intro id
    show 0 ≤ actOfNodes (runProp s src sig md now).nodes id ∧
         actOfNodes (runProp s src sig md now).nodes id ≤ 1
    unfold runProp
    exact runQueue_bounds _ _ _ _ _ _ _ hb hq' id
  · intro m hm
    have hm' : m ∈ (runProp s src sig md now).deferred := hm
    unfold runProp at hm'
    exact runQueue_deferred_nonneg _ _ _ _ _ _ _ he hq' (by simp) m hm'

/-- The member loop of `broadcast` preserves the state invariant. -/
theorem broadcastGo_inv (now : Nat) (sig : ℚ) (md : List (String × String))
    (g : String) :
    ∀ (members : List NodeId) (s : Substrate) (defAcc : List Msg),
      SubstrateInv s → (∀ m ∈ defAcc, 0 ≤ m.signal) → 0 ≤ sig →
      SubstrateInv (broadcastGo now sig md g members s defAcc).1 := by
  intro members
  induction members with
  | nil =>
    intro s defAcc h hd hs
    obtain ⟨hb, he, hq⟩ := h
    refine ⟨hb, he, ?_⟩
    intro m hm
    rcases List.mem_append.mp hm with hm | hm
    · exact hq m hm
    · exact hd m hm
  | cons nid rest ih =>
    intro s defAcc h hd hs
    have hp : SubstrateInv (propagate s nid sig (setAssoc md "broadcast" g) now).1 :=
      propagate_inv _ _ _ _ _ h hs
    simp only [broadcastGo]
    rcases hprop : propagate s nid sig (setAssoc md "broadcast" g) now with ⟨s', r⟩
    rw [hprop] at hp
    obtain ⟨hb', he', hq'⟩ := hp
    have hd' : ∀ m ∈ defAcc ++ s'.messageQueue, 0 ≤ m.signal := by
      intro m hm
      rcases List.mem_append.mp hm with hm | hm
      · exact hd m hm
      · exact hq' m hm
    cases r with
    | ok v =>
      dsimp only
      have hrec := ih { s' with messageQueue := [] } (defAcc ++ s'.messageQueue)
        ⟨hb', he', by simp⟩ hd' hs
      cases hbg : broadcastGo now sig md g rest { s' with messageQueue := [] }
          (defAcc ++ s'.messageQueue) with
      | mk s'' rs =>
        rw [hbg] at hrec
        cases rs <;> exact hrec
    | error e => exact ⟨hb', he', hd'⟩

/-- `broadcast` preserves the state invariant. -/
theorem broadcast_inv (s : Substrate) (g : String) (sig : ℚ)
    (md : List (String × String)) (now : Nat)
    (h : SubstrateInv s) (hs : 0 ≤ sig) : SubstrateInv (broadcast s g sig md now).1 := by
  unfold broadcast
  cases getAssoc s.nodeGroups g with
  | none => exact h
  | some members => exact broadcastGo_inv now sig md g members s [] h (by simp) hs

/-- Every valid operation preserves the state invariant. -/
theorem applyOp_inv (s : Substrate) (op : Op)
    (h : SubstrateInv s) (hv : validOp op = true) : SubstrateInv (applyOp s op) := by
  obtain ⟨hb, he, hq⟩ := h
  cases op with
  | regNode id cfg =>
    refine ⟨?_, he, hq⟩
    intro i
    show 0 ≤ actOfNodes (setAssoc s.nodes id (mkNode id cfg)) i ∧
         actOfNodes (setAssoc s.nodes id (mkNode id cfg)) i ≤ 1
    rw [actOfNodes_setAssoc]
    by_cases hi : i = id
    · rw [if_pos hi]
      simp [mkNode]
    · rw [if_neg hi]
      exact hb i
  | regEdge id cfg =>
    refine ⟨hb, ?_, hq⟩
    intro p hp
    rcases mem_setAssoc hp with hp | hp
    · have : p.2 = mkEdge id cfg := by rw [hp]
      rw [this]
      simpa [mkEdge] using of_decide_eq_true (by simpa [validOp] using hv)
    · exact he p hp
  | prop src sig md =>
    exact propagate_inv _ _ _ _ _ ⟨hb, he, hq⟩ (of_decide_eq_true (by simpa [validOp] using hv))
  | bcast g sig md =>
    exact broadcast_inv _ _ _ _ _ ⟨hb, he, hq⟩ (of_decide_eq_true (by simpa [validOp] using hv))

theorem foldl_applyOp_inv :
    ∀ (ops : List Op) (s : Substrate),
      SubstrateInv s → validOps ops = true → SubstrateInv (ops.foldl applyOp s) := by
  intro ops
  induction ops with
  | nil => intro s h _; exact h
  | cons op rest ih =>
    intro s h hv
    simp only [validOps, List.all_cons, Bool.and_eq_true] at hv
    exact ih _ (applyOp_inv s op h hv.1) (by simp [validOps, hv.2])

theorem substrateInv_init : SubstrateInv Substrate.init := by
  refine ⟨?_, by simp [Substrate.init], by simp [Substrate.init]⟩
  intro id
  simp [actOf, actOfNodes, Substrate.init, getAssoc]

/-- A rejecting run still returns `typeError` precisely when some visited
node was missing: a `null` entry in the results list. -/
theorem propagate_snd_error_of_none (s : Substrate) (src : NodeId) (sig : ℚ)
    (md : List (String × String)) (now : Nat)
    (h : (none : Option ActResult) ∈ (runProp s src sig md now).results) :
    (propagate s src sig md now).2 = Except.error JsError.typeError := by
  have hall : (runProp s src sig md now).results.all Option.isSome = false := by
    cases hval : (runProp s src sig md now).results.all Option.isSome with
    | false => rfl
    | true =>
      have := List.all_eq_true.mp hval none h
      simp at this
  simp only [propagate, hall]
  rfl

/-- An unregistered source id puts a `null` entry into the results of the
run (the source is still dequeued, warned about, and marked visited). -/
theorem runProp_none_of_missing (s : Substrate) (src : NodeId) (sig : ℚ)
    (md : List (String × String)) (now : Nat)
    (hq : s.messageQueue = []) (hn : getAssoc s.nodes src = none) :
    (none : Option ActResult) ∈ (runProp s src sig md now).results := by
  unfold runProp
  rw [hq]
  simp only [List.nil_append, runQueue]
  rw [if_neg (List.not_mem_nil (initMsg src sig md).«to»)]
  have hact : activateNode s.nodes (initMsg src sig md).«to» (initMsg src sig md).signal now
      = (s.nodes, none) := by
    unfold activateNode
    rw [show (initMsg src sig md).«to» = src from rfl, hn]
  rw [hact]
  simp

theorem ampOfNodes_setAssoc (nodes : List (String × WaveNode)) (nid : String)
    (v : WaveNode) (id : String) :
    ampOfNodes (setAssoc nodes nid v) id =
      if id = nid then v.amplitude else ampOfNodes nodes id := by
  by_cases h : id = nid
  · subst h
    simp [ampOfNodes, getAssoc_setAssoc_self]
  · simp [ampOfNodes, getAssoc_setAssoc_ne _ _ _ _ h, h]

theorem couplingIncr_nonneg (fs : List (String × ℚ)) (cosFn : ℚ → ℚ) (e : WaveEdge) :
    0 ≤ couplingIncr fs cosFn e :=
  mul_nonneg (abs_nonneg _) (by norm_num)

/-- The coupling loop of the wave timestep: monotone on every amplitude,
keeps amplitudes in `[0, 1]`, and adds at most the per-edge transfer budget
`|transferred| * 0.01` summed over the couplings aimed at a node. -/
theorem applyCouplings_bounds (fs : List (String × ℚ)) (cosFn : ℚ → ℚ) :
    ∀ (edges : List (String × WaveEdge)) (nodes : List (String × WaveNode)),
      (∀ id, 0 ≤ ampOfNodes nodes id ∧ ampOfNodes nodes id ≤ 1) →
      ∀ id,
        ampOfNodes nodes id ≤ ampOfNodes (applyCouplings fs cosFn edges nodes) id ∧
        0 ≤ ampOfNodes (applyCouplings fs cosFn edges nodes) id ∧
        ampOfNodes (applyCouplings fs cosFn edges nodes) id ≤ 1 ∧
        ampOfNodes (applyCouplings fs cosFn edges nodes) id ≤
          ampOfNodes nodes id + couplingSum fs cosFn edges id := by
  intro edges
  induction edges with
  | nil =>
    intro nodes h id
    simp only [applyCouplings, couplingSum]
    exact ⟨le_refl _, (h id).1, (h id).2, by simp⟩
  | cons p rest ih =>
    obtain ⟨eid, e⟩ := p
    intro nodes h id
    simp only [applyCouplings, couplingSum]
    cases hg : getAssoc nodes e.«to» with
    | none =>
      have hrec := ih nodes h id
      refine ⟨hrec.1, hrec.2.1, hrec.2.2.1, le_trans hrec.2.2.2 ?_⟩
      have hnn : 0 ≤ (if e.«to» = id then couplingIncr fs cosFn e else 0) := by
        split
        · exact couplingIncr_nonneg fs cosFn e
        · exact le_refl _
      linarith
    | some tn =>
      have htn : ampOfNodes nodes e.«to» = tn.amplitude := by simp [ampOfNodes, hg]
      have hb' : ∀ i,
          0 ≤ ampOfNodes (setAssoc nodes e.«to»
              { tn with amplitude := min 1 (tn.amplitude + couplingIncr fs cosFn e) }) i ∧
          ampOfNodes (setAssoc nodes e.«to»
              { tn with amplitude := min 1 (tn.amplitude + couplingIncr fs cosFn e) }) i ≤ 1 := by
        intro i
        rw [ampOfNodes_setAssoc]
        by_cases hi : i = e.«to»
        · rw [if_pos hi]
          constructor
          · show 0 ≤ min 1 (tn.amplitude + couplingIncr fs cosFn e)
            exact le_min (by norm_num)
              (add_nonneg (htn ▸ (h e.«to»).1) (couplingIncr_nonneg fs cosFn e))
          · show min 1 (tn.amplitude + couplingIncr fs cosFn e) ≤ 1
            exact min_le_left _ _
        · rw [if_neg hi]
          exact h i
      have hmono : ∀ i, ampOfNodes nodes i ≤
          ampOfNodes (setAssoc nodes e.«to»
            { tn with amplitude := min 1 (tn.amplitude + couplingIncr fs cosFn e) }) i := by
        intro i
        rw [ampOfNodes_setAssoc]
        by_cases hi : i = e.«to»
        · rw [if_pos hi, hi, htn]
          show tn.amplitude ≤ min 1 (tn.amplitude + couplingIncr fs cosFn e)
          exact le_min (htn ▸ (h e.«to»).2)
            (le_add_of_nonneg_right (couplingIncr_nonneg fs cosFn e))
        · rw [if_neg hi]
      have hstep : ∀ i,
          ampOfNodes (setAssoc nodes e.«to»
            { tn with amplitude := min 1 (tn.amplitude + couplingIncr fs cosFn e) }) i ≤
          ampOfNodes nodes i + (if e.«to» = i then couplingIncr fs cosFn e else 0) := by
        intro i
        rw [ampOfNodes_setAssoc]
        by_cases hi : i = e.«to»
        · rw [if_pos hi, if_pos hi.symm, hi, htn]
          show min 1 (tn.amplitude + couplingIncr fs cosFn e) ≤
            tn.amplitude + couplingIncr fs cosFn e
          exact min_le_right _ _
        · rw [if_neg hi, if_neg (fun hh => hi hh.symm)]
          simp
      have hrec := ih _ hb' id
      refine ⟨le_trans (hmono id) hrec.1, hrec.2.1, hrec.2.2.1, ?_⟩
      have h1 := hrec.2.2.2
      have h2 := hstep id
      linarith

theorem couplingSum_nonneg (fs : List (String × ℚ)) (cosFn : ℚ → ℚ) :
    ∀ (edges : List (String × WaveEdge)) (id : String),
      0 ≤ couplingSum fs cosFn edges id := by
  intro edges
  induction edges with
  | nil => intro id; exact le_refl _
  | cons p rest ih =>
    intro id
    simp only [couplingSum]
    have hnn : 0 ≤ (if p.2.«to» = id then couplingIncr fs cosFn p.2 else 0) := by
      split
      · exact couplingIncr_nonneg fs cosFn p.2
      · exact le_refl _
    have := ih id
    linarith

/-- With a caller whose DNA has no `baseGenes` layer, `canMateWith` either
returns an incompatibility object (age / cooldown / relatedness gate) or
throws `TypeError` from `_calculateGeneticDistance`; it can never return a
compatible result. -/
theorem canMateWith_no_baseGenes (now : ℚ) (g1 g2 : ReproductiveCausalGraph)
    (h1 : g1.dna.baseGenes = none) :
    canMateWith now g1 g2 = Except.error JsError.typeError ∨
      ∃ r, canMateWith now g1 g2 = Except.ok (MateCheck.incompatible r) := by
  have hcd : calculateGeneticDistance g1 g2 = Except.error JsError.typeError := by
    unfold calculateGeneticDistance
    rw [h1]
  unfold canMateWith
  by_cases ha : g1.age < g1.minMatingAge ∨ g2.age < g2.minMatingAge
  · rw [if_pos ha]
    exact Or.inr ⟨"too_young", rfl⟩
  · rw [if_neg ha]
    by_cases hc : now - g1.lastMating < g1.cooldownPeriod
    · rw [if_pos hc]
      exact Or.inr ⟨"cooldown", rfl⟩
    · rw [if_neg hc]
      by_cases hr : g1.ancestors.contains g2.dna.id ∨ g2.ancestors.contains g1.dna.id ∨
          g1.parents.contains g2.dna.id ∨ g2.parents.contains g1.dna.id
      · rw [if_pos hr]
        exact Or.inr ⟨"too_related", rfl⟩
      · rw [if_neg hr]
        left
        rw [show (do
          let gd ← calculateGeneticDistance g1 g2
          if gd > 4/5 then Except.ok (MateCheck.incompatible "too_different")
          else do
            let hv ← calculateHybridVigor g1 g2
            Except.ok (MateCheck.compatible gd hv) : Except JsError MateCheck) =
          Except.error JsError.typeError from by rw [hcd]; rfl]

/-- `mateWith` can never succeed when the caller's DNA has no `baseGenes`
layer. -/
theorem mateWith_no_baseGenes (mk : DNA → DNA → Nat → List DNA) (now : ℚ)
    (g1 g2 : ReproductiveCausalGraph) (h1 : g1.dna.baseGenes = none) :
    (mateWith mk now g1 g2).isOk = false := by
  rcases canMateWith_no_baseGenes now g1 g2 h1 with hc | ⟨r, hc⟩
  · unfold mateWith
    rw [hc]
    rfl
  · unfold mateWith
    rw [hc]
    rfl

/-! ## Claims -/

/-- Claim C1: the spec expects `propagate('A', 1.0, {})` on the registered
`A→B` (0.8), `B→C` (0.5) chain to end with activations 1.0 / 0.8 / 0.4 and
visitation order `[A, B, C]`.  The code's queue loop is written to do
exactly that, but its downstream pushes go through `setTimeout`, whose
callbacks cannot run before the microtask-chained loop exits: the call
activates only `A`, leaves `B` and `C` at 0, resolves with
`activatedNodes = ['A']`, and parks the `A→B` message in
`this.messageQueue`, where only a later call finds it (after the 3rd call
`C` finally reaches 0.4). -/
theorem c1_end_to_end_scenario :
    visitOrder (runProp (applyOps endToEndOps) "A" 1 [] 0) = ["A"] ∧
    actOf (propagate (applyOps endToEndOps) "A" 1 [] 0).1 "A" = 1 ∧
    actOf (propagate (applyOps endToEndOps) "A" 1 [] 0).1 "B" = 0 ∧
    actOf (propagate (applyOps endToEndOps) "A" 1 [] 0).1 "C" = 0 ∧
    (propagate (applyOps endToEndOps) "A" 1 [] 0).2 =
      Except.ok { activatedNodes := ["A"], finalStates := [⟨"A", 1⟩] } ∧
    (propagate (applyOps endToEndOps) "A" 1 [] 0).1.messageQueue.map Msg.«to» = ["B"] ∧
    actOf (applyOps (endToEndOps ++ [propagateA, propagateA, propagateA])) "C" = 2/5 := by
  refine ⟨by decide!, by decide!, by decide!, by decide!, by decide!, by decide!, by decide!⟩

/-- Claim C2: termination and the per-run cycle guard are real — every run
visits pairwise-distinct nodes, and performs one dequeue per initially
queued message, so its visit count is bounded by the pending messages plus
one — but the claim's cycle scenario does not behave as specified: with
`A→B` and `B→A` of weight 1.0, `propagate('A', 1.0, {})` terminates having
visited only `A`.  `B` is visited zero times, not exactly once, because its
message is timer-deferred into `this.messageQueue` for a later call. -/
theorem c2_termination_and_cycle_guard :
    (∀ (s : Substrate) (src : NodeId) (sig : ℚ) (md : List (String × String)) (now : Nat),
        (visitOrder (runProp s src sig md now)).Nodup) ∧
    (∀ (s : Substrate) (src : NodeId) (sig : ℚ) (md : List (String × String)) (now : Nat),
        (visitOrder (runProp s src sig md now)).length ≤ s.messageQueue.length + 1) ∧
    visitOrder (runProp (applyOps cycleOps) "A" 1 [] 0) = ["A"] ∧
    actOf (propagate (applyOps cycleOps) "A" 1 [] 0).1 "A" = 1 ∧
    actOf (propagate (applyOps cycleOps) "A" 1 [] 0).1 "B" = 0 ∧
    (propagate (applyOps cycleOps) "A" 1 [] 0).1.messageQueue.map Msg.«to» = ["B"] := by
  refine ⟨?_, ?_, by decide!, by decide!, by decide!, by decide!⟩
  · intro s src sig md now
    unfold visitOrder
    rw [List.nodup_reverse]
    exact runQueue_visited_nodup _ _ _ _ _ _ _ List.nodup_nil
  · intro s src sig md now
    unfold visitOrder
    rw [List.length_reverse]
    have hlen := runQueue_visited_length s.edges now
      (s.messageQueue ++ [initMsg src sig md]) s.nodes [] [] []
    simpa [runProp, List.length_append] using hlen

/-- Claim C3 counterexample: the claim quantifies over *any* sequence of
calls, but `propagate` accepts an arbitrary signal and
`min(1, activation + signal)` has no lower clamp, so
`propagate('A', -1, {})` drives `A.activation` to `-1 ∉ [0, 1]`. -/
theorem c3_counterexample :
    actOf (applyOps [Op.regNode "A" {}, Op.prop "A" (-1) []]) "A" = -1 ∧
    ¬ (0 ≤ actOf (applyOps [Op.regNode "A" {}, Op.prop "A" (-1) []]) "A") := by
  constructor
  · decide!
  · decide!

/-- Claim C3 (amended): after any sequence of `registerNode`,
`registerCausalEdge`, `propagate` and `broadcast` calls whose signals are
nonnegative and whose effective edge weights are nonnegative, every node's
activation lies in `[0, 1]` (the upper clamp is `min(1, …)`; the lower bound
needs the nonnegativity restriction the code never enforces). -/
theorem c3_activation_bounded (ops : List Op) (h : validOps ops = true) :
    ∀ id, 0 ≤ actOf (applyOps ops) id ∧ actOf (applyOps ops) id ≤ 1 :=
  (foldl_applyOp_inv ops Substrate.init substrateInv_init h).1

theorem c3_activation_bounded_witness :
    validOps (endToEndOps ++ [propagateA]) = true ∧
    (0 ≤ actOf (applyOps (endToEndOps ++ [propagateA])) "B" ∧
      actOf (applyOps (endToEndOps ++ [propagateA])) "B" ≤ 1) :=
  ⟨by decide!, c3_activation_bounded (endToEndOps ++ [propagateA]) (by decide!) "B"⟩

/-- Claim C4 counterexample: two sequential `propagate('A', 1.0, {})` calls
are not reproducible.  On the A→B→C graph the first run visits `[A]` while
the second — which drains the first run's timer-delivered `A→B` message —
visits `[B, A]`; and even on a single isolated node the activation deltas
differ (1 then 0, the `min(1, …)` clamp). -/
theorem c4_counterexample :
    visitOrder (runProp (applyOps endToEndOps) "A" 1 [] 0) = ["A"] ∧
    visitOrder (runProp (propagate (applyOps endToEndOps) "A" 1 [] 0).1 "A" 1 [] 0) =
      ["B", "A"] ∧
    (["B", "A"] : List NodeId) ≠ ["A"] ∧
    actOf (propagate (applyOps [Op.regNode "A" {}]) "A" 1 [] 0).1 "A" -
        actOf (applyOps [Op.regNode "A" {}]) "A" = 1 ∧
    actOf (propagate (propagate (applyOps [Op.regNode "A" {}]) "A" 1 [] 0).1
          "A" 1 [] 0).1 "A" -
        actOf (propagate (applyOps [Op.regNode "A" {}]) "A" 1 [] 0).1 "A" = 0 ∧
    (1 : ℚ) ≠ 0 := by
  refine ⟨by decide!, by decide!, by decide!, by decide!, by decide!, by decide!⟩

/-- Claim C4 (amended): determinism holds only relative to the full
instance state: the visitation order of a run is a function of the edges,
the pending message queue and which node ids exist — independent of the
activation values and of the clock — so identical full states (pending
queue included) give identical orders and deltas.  Two *sequential* calls
share neither activations nor queue: the first run reshapes both. -/
theorem c4_order_determined_by_structure (s₁ s₂ : Substrate) (src : NodeId) (sig : ℚ)
    (md : List (String × String)) (now₁ now₂ : Nat)
    (he : s₁.edges = s₂.edges) (hq : s₁.messageQueue = s₂.messageQueue)
    (hk : ∀ id, (getAssoc s₁.nodes id).isSome = (getAssoc s₂.nodes id).isSome) :
    visitOrder (runProp s₁ src sig md now₁) = visitOrder (runProp s₂ src sig md now₂) := by
  unfold visitOrder runProp
  rw [he, hq]
  exact congrArg List.reverse (runQueue_visited_keys s₂.edges _ _ _ _ _ _ _ _ _ _ hk)

theorem c4_order_determined_by_structure_witness :
    (applyOps [Op.regNode "A" {}]).edges =
      (propagate (applyOps [Op.regNode "A" {}]) "A" 1 [] 0).1.edges ∧
    (applyOps [Op.regNode "A" {}]).messageQueue =
      (propagate (applyOps [Op.regNode "A" {}]) "A" 1 [] 0).1.messageQueue ∧
    visitOrder (runProp (applyOps [Op.regNode "A" {}]) "A" 1 [] 2) =
      visitOrder (runProp (propagate (applyOps [Op.regNode "A" {}]) "A" 1 [] 0).1
        "A" 1 [] 9) := by
  refine ⟨by decide!, by decide!, ?_⟩
  refine c4_order_determined_by_structure _ _ "A" 1 [] 2 9 (by decide!) (by decide!) ?_
  intro id
  have hnodes : (propagate (applyOps [Op.regNode "A" {}]) "A" 1 [] 0).1.nodes =
      (runProp (applyOps [Op.regNode "A" {}]) "A" 1 [] 0).nodes :=
    congrArg Substrate.nodes (propagate_fst _ _ _ _ _)
  rw [hnodes]
  exact (runQueue_keys _ _ _ _ _ _ _ id).symm

/-- Claim C5 counterexample: `registerNode` on an existing id does not fail
and does not leave the node unchanged — it silently replaces the node,
resetting its activation from 1 back to 0. -/
theorem c5_counterexample :
    actOf (applyOps [Op.regNode "A" {}, propagateA]) "A" = 1 ∧
    actOf (registerNode (applyOps [Op.regNode "A" {}, propagateA]) "A" {}) "A" = 0 := by
  refine ⟨by decide!, by decide!⟩

/-- Claim C5 (amended): `registerNode` never fails: for every state —
whether or not the id is already registered — it (over)writes the node
built from the config, whose activation is initialized to 0. -/
theorem c5_register_overwrites (s : Substrate) (id : NodeId) (cfg : NodeConfig) :
    getAssoc (registerNode s id cfg).nodes id = some (mkNode id cfg) ∧
    (mkNode id cfg).activation = 0 :=
  ⟨getAssoc_setAssoc_self _ _ _, rfl⟩

/-- Claim C6 counterexample: `registerCausalEdge` validates nothing — with no
nodes registered at all and an out-of-range weight 5 the edge is stored
anyway. -/
theorem c6_counterexample :
    getAssoc (registerCausalEdge Substrate.init "e"
        { «from» := "X", «to» := "Y", strength := some 5 }).edges "e" =
      some (mkEdge "e" { «from» := "X", «to» := "Y", strength := some 5 }) ∧
    (mkEdge "e" { «from» := "X", «to» := "Y", strength := some 5 }).strength = 5 ∧
    getAssoc (registerCausalEdge Substrate.init "e"
        { «from» := "X", «to» := "Y", strength := some 5 }).nodes "X" = none ∧
    getAssoc (registerCausalEdge Substrate.init "e"
        { «from» := "X", «to» := "Y", strength := some 5 }).nodes "Y" = none := by
  refine ⟨by decide!, by decide!, by decide!, by decide!⟩

/-- Claim C6 (amended): the substrate's `registerCausalEdge` raises no error
and always stores the configured edge (unknown endpoints and out-of-range
weights included; weight 0 is silently replaced by the default 1.0); the
wave variant's `registerResonanceEdge` also raises no error but silently
skips registration when an endpoint is missing, without weight
validation. -/
theorem c6_no_validation :
    (∀ (s : Substrate) (id : String) (cfg : EdgeConfig),
        getAssoc (registerCausalEdge s id cfg).edges id = some (mkEdge id cfg)) ∧
    (∀ (g : WaveResonanceCausalGraph) (id : String) (cfg : WaveEdgeConfig),
        getAssoc g.nodes cfg.«from» = none ∨ getAssoc g.nodes cfg.«to» = none →
        registerResonanceEdge g id cfg = g) := by
  constructor
  · intro s id cfg
    exact getAssoc_setAssoc_self _ _ _
  · intro g id cfg h
    unfold registerResonanceEdge
    rcases h with h | h
    · rw [h]
    · cases hf : getAssoc g.nodes cfg.«from» with
      | none => rfl
      | some fn => rw [h]

theorem c6_no_validation_witness :
    registerResonanceEdge {} "e" { «from» := "X", «to» := "Y" } =
      ({} : WaveResonanceCausalGraph) :=
  c6_no_validation.2 {} "e" { «from» := "X", «to» := "Y" } (Or.inl rfl)

/-- Claim C7 counterexample: `propagate` on an unregistered source id does
reject — but with a `TypeError` (from `results.map(r => r.nodeId)` hitting
the `null` result), not with `NodeNotFoundError`, which no code path
produces. -/
theorem c7_counterexample :
    (propagate Substrate.init "ghost" 1 [] 0).2 = Except.error JsError.typeError ∧
    JsError.typeError ≠ JsError.nodeNotFoundError := by
  refine ⟨by decide!, by decide!⟩

/-- Claim C7 (amended): a `propagate` call whose `sourceId` is unregistered
never returns a normal result: the missing node contributes a `null` entry
to the run's results and the call rejects with `TypeError` while assembling
the return value (after the run's side effects have already happened). -/
theorem c7_unknown_source_typeError (s : Substrate) (src : NodeId) (sig : ℚ)
    (md : List (String × String)) (now : Nat)
    (hq : s.messageQueue = []) (hn : getAssoc s.nodes src = none) :
    (propagate s src sig md now).2 = Except.error JsError.typeError :=
  propagate_snd_error_of_none s src sig md now
    (runProp_none_of_missing s src sig md now hq hn)

theorem c7_unknown_source_typeError_witness :
    Substrate.init.messageQueue = [] ∧
    getAssoc Substrate.init.nodes "ghost" = none ∧
    (propagate Substrate.init "ghost" 1 [] 0).2 = Except.error JsError.typeError :=
  ⟨rfl, rfl, c7_unknown_source_typeError Substrate.init "ghost" 1 [] 0 rfl rfl⟩

/-- Claim C8 counterexample: a state in which the transition `A→B` has been
observed exactly five times, each with strength 1 > 0.3, and no edge *from*
`A` *to* `B` is registered (the only edge is the bidirectional `B→A`,
traversed through its synthesized reverse view).  Six calls realize the
five observations, because each run's downstream message is timer-deferred
into the next call.  The proposal query returns no `{from: 'A', to: 'B'}`
proposal — `_learnPattern` demands `count > 5` — refuting the claim (only
the `A→A` self-pattern, observed six times, has been proposed). -/
theorem c8_counterexample :
    getAssoc (applyOps (bidirObservationOps ++ List.replicate 6 propagateA)).observedPatterns
        "A→B" = some ⟨5, [1, 1, 1, 1, 1]⟩ ∧
    (applyOps (bidirObservationOps ++ List.replicate 6 propagateA)).edges.any
        (fun ie => ie.2.«from» == "A" && ie.2.«to» == "B") = false ∧
    getProposedEvolutions (applyOps (bidirObservationOps ++ List.replicate 6 propagateA)) =
      [⟨"A", "A", 1, 3/5⟩] := by
  refine ⟨by decide!, by decide!, by decide!⟩

/-- Claim C8 (amended): a proposal appears once the observed count *exceeds*
5 — at the sixth observation of `A→B`, which the timer deferral pushes to
the 7th call of this scenario.  Then `{from: 'A', to: 'B'}` is proposed
exactly when no edge `A→B` is registered (the `A→A` self-proposal appears
alongside), with confidence `count / 10` — equal to
`min(1, count / (5 * 2))` at count 6 (0.6) but unclamped in general: by the
12th call the recorded `A→B` confidence reaches 1.1 > 1. -/
theorem c8_proposals_after_six_observations :
    getProposedEvolutions (applyOps (bidirObservationOps ++ List.replicate 7 propagateA)) =
      [⟨"A", "A", 1, 3/5⟩, ⟨"A", "A", 1, 7/10⟩, ⟨"A", "B", 1, 3/5⟩] ∧
    getProposedEvolutions (applyOps (directEdgeOps ++ List.replicate 7 propagateA)) =
      [⟨"A", "A", 1, 3/5⟩, ⟨"A", "A", 1, 7/10⟩] ∧
    (⟨"A", "B", 1, 11/10⟩ : Proposal) ∈
      getProposedEvolutions (applyOps (bidirObservationOps ++ List.replicate 12 propagateA)) ∧
    ¬ ((11 : ℚ)/10 ≤ 1) := by
  refine ⟨by decide!, by decide!, by decide!, by decide!⟩

/-- Claim C9: default DNA (`_generateDNA`) carries no `baseGenes` object, so
for two graphs built from default DNA that pass the age and cooldown gates,
`canMateWith` throws `TypeError` (reading gene entries of the undefined
`baseGenes` inside `_calculateGeneticDistance`) instead of returning a
compatibility result, and `mateWith` can never successfully produce
offspring for such graphs. -/
theorem c9_default_dna_mating (r1 r2 : Nat → ℚ) (age1 age2 lastM now : ℚ)
    (mk : DNA → DNA → Nat → List DNA)
    (h1 : 60000 ≤ age1) (h2 : 60000 ≤ age2) (h3 : 30000 ≤ now - lastM) :
    (generateDNA r1).baseGenes = none ∧
    canMateWith now
      { mkReproductiveCausalGraph (generateDNA r1) with age := age1, lastMating := lastM }
      { mkReproductiveCausalGraph (generateDNA r2) with age := age2 } =
      Except.error JsError.typeError ∧
    (mateWith mk now
      { mkReproductiveCausalGraph (generateDNA r1) with age := age1, lastMating := lastM }
      { mkReproductiveCausalGraph (generateDNA r2) with age := age2 }).isOk = false := by
  refine ⟨rfl, ?_, mateWith_no_baseGenes mk now _ _ rfl⟩
  have hcd : calculateGeneticDistance
      { mkReproductiveCausalGraph (generateDNA r1) with age := age1, lastMating := lastM }
      { mkReproductiveCausalGraph (generateDNA r2) with age := age2 } =
      Except.error JsError.typeError := rfl
  unfold canMateWith
  rw [if_neg, if_neg, if_neg]
  · rw [hcd]
    rfl
  · simp [mkReproductiveCausalGraph, generateDNA]
  · show ¬ (now - lastM < 30000)
    exact not_lt.mpr h3
  · show ¬ (age1 < 60000 ∨ age2 < 60000)
    exact not_or.mpr ⟨not_lt.mpr h1, not_lt.mpr h2⟩

theorem c9_default_dna_mating_witness :
    (60000 : ℚ) ≤ 60000 ∧ (30000 : ℚ) ≤ 30000 - 0 ∧
    ((generateDNA constRand).baseGenes = none ∧
     canMateWith 30000
       { mkReproductiveCausalGraph (generateDNA constRand) with age := 60000, lastMating := 0 }
       { mkReproductiveCausalGraph (generateDNA constRand) with age := 60000 } =
       Except.error JsError.typeError ∧
     (mateWith noOffspring 30000
       { mkReproductiveCausalGraph (generateDNA constRand) with age := 60000, lastMating := 0 }
       { mkReproductiveCausalGraph (generateDNA constRand) with age := 60000 }).isOk = false) :=
  ⟨by norm_num, by norm_num,
   c9_default_dna_mating constRand constRand 60000 60000 0 30000 noOffspring
     (by norm_num) (by norm_num) (by norm_num)⟩

/-- Claim C10: one `_updateWaveField` timestep never decreases a node's
amplitude (each coupling adds a nonnegative increment of at most
`|transferred| * 0.01`, summed in `couplingSum`), and amplitudes that start
in `[0, 1]` stay in `[0, 1]` — for every wave/cosine evaluation, since the
clamp structure alone guarantees it. -/
theorem c10_wave_timestep_bounds (wave : WaveNode → ℚ) (cosFn : ℚ → ℚ) (step : Nat)
    (g : WaveResonanceCausalGraph)
    (h : ∀ id, 0 ≤ ampOf g id ∧ ampOf g id ≤ 1) :
    ∀ id,
      ampOf g id ≤ ampOf (updateWaveField wave cosFn step g) id ∧
      0 ≤ ampOf (updateWaveField wave cosFn step g) id ∧
      ampOf (updateWaveField wave cosFn step g) id ≤ 1 ∧
      ampOf (updateWaveField wave cosFn step g) id ≤
        ampOf g id +
          couplingSum (computeFieldState wave g.nodes g.fieldState) cosFn g.edges id := by
  intro id
  exact applyCouplings_bounds (computeFieldState wave g.nodes g.fieldState) cosFn
    g.edges g.nodes h id

theorem c10_wave_timestep_bounds_witness :
    (∀ id, 0 ≤ ampOf waveExample id ∧ ampOf waveExample id ≤ 1) ∧
    (ampOf waveExample "B" ≤ ampOf (updateWaveField constWave constOne 0 waveExample) "B" ∧
     0 ≤ ampOf (updateWaveField constWave constOne 0 waveExample) "B" ∧
     ampOf (updateWaveField constWave constOne 0 waveExample) "B" ≤ 1 ∧
     ampOf (updateWaveField constWave constOne 0 waveExample) "B" ≤
       ampOf waveExample "B" +
         couplingSum (computeFieldState constWave waveExample.nodes waveExample.fieldState)
           constOne waveExample.edges "B") := by
  have hbounds : ∀ id, 0 ≤ ampOf waveExample id ∧ ampOf waveExample id ≤ 1 := by
    intro id
    show 0 ≤ ampOfNodes waveExample.nodes id ∧ ampOfNodes waveExample.nodes id ≤ 1
    by_cases hA : ("A" : String) = id
    · simp [ampOfNodes, waveExample, getAssoc, hA]
      norm_num
    · by_cases hB : ("B" : String) = id
      · simp [ampOfNodes, waveExample, getAssoc, hA, hB]
        norm_num
      · simp [ampOfNodes, waveExample, getAssoc, hA, hB]
  exact ⟨hbounds, c10_wave_timestep_bounds constWave constOne 0 waveExample hbounds "B"⟩

end FoundryGrid
